import Mathlib

/-
  Verification development for the networked ECS core of the
  whotookmytennents.com repository.

  The TypeScript sources are shallowly embedded:
  - JS Map / colyseus MapSchema values become insertion-ordered association
    lists with unique keys; JS Set values become insertion-ordered
    duplicate-free lists.
  - JS numbers become rationals; machine floats carry no NaN cases that the
    verified code paths depend on.
  - Methods that can throw return an explicit error value together with the
    post-mutation state, because a JS exception leaves already-performed
    in-place mutations visible to the caller.
-/

set_option linter.unusedVariables false

namespace Wtmt

/-- JS Map.has: true when some entry has the key. -/
def mapHas {κ α : Type} [BEq κ] (m : List (κ × α)) (k : κ) : Bool :=
  m.any (fun p => p.1 == k)

/-- JS Map.get: the value stored under the key, if any. -/
def mapGet {κ α : Type} [BEq κ] (m : List (κ × α)) (k : κ) : Option α :=
  (m.find? (fun p => p.1 == k)).map (fun p => p.2)

/-- JS Map.set: replaces the entry in place when the key is present, otherwise
appends a new entry, preserving insertion order. -/
def mapSet {κ α : Type} [BEq κ] (m : List (κ × α)) (k : κ) (v : α) : List (κ × α) :=
  if mapHas m k then m.map (fun p => if p.1 == k then (k, v) else p) else m ++ [(k, v)]

/-- JS Map.delete: removes every entry with the key (at most one, given unique
keys). -/
def mapDelete {κ α : Type} [BEq κ] (m : List (κ × α)) (k : κ) : List (κ × α) :=
  m.filter (fun p => !(p.1 == k))

/-- JS Set.add on a set of strings. -/
def setAdd (s : List String) (x : String) : List String :=
  if s.contains x then s else s ++ [x]

/-- JS Set.delete on a set of strings. -/
def setDelete (s : List String) (x : String) : List String :=
  s.filter (fun y => !(y == x))

/-- Logger.errorAndThrow (the shared Logger module, found in the third
document of shared/src/zod.ts): logs the message as an error, then performs
throw new Error(error ?? message). Callers in the registry pass no error
argument, so the thrown Error carries the message; the console logging is a
side effect outside this model, and interpolated entity ids are elided from
the message strings. -/
def errorAndThrow {α : Type} (tag msg : String) : Except String α :=
  Except.error msg

/-- 2D vector (engine/src/math/vec.ts), with JS numbers as rationals. -/
structure Vec2 where
  x : ℚ
  y : ℚ
deriving DecidableEq

def Vec2.add (v w : Vec2) : Vec2 := ⟨v.x + w.x, v.y + w.y⟩

def Vec2.mul (v : Vec2) (s : ℚ) : Vec2 := ⟨v.x * s, v.y * s⟩

/-- Squared euclidean distance. The source compares `a.point.distance(start)`
values; the square root is monotone on nonnegative reals, so ordering by
squared distance is ordering by distance. -/
def Vec2.sqDist (v w : Vec2) : ℚ := (v.x - w.x) ^ 2 + (v.y - w.y) ^ 2

/-- The serializable payload of a component. The engine components that the
claims touch (Transform, Rigidbody, RectangleCollider) carry their declared
fields; every other component type is data opaque to the claims. -/
inductive ComponentData
  | transform (position : Vec2) (rotation : ℚ) (scale : Vec2) (zIndex : Int)
  | rigidbody (velocity : Vec2) (angularVelocity : ℚ) (density : ℚ) (inertia : ℚ)
      (restitution : ℚ) (friction : ℚ) (frictionAir : ℚ) (frictionStatic : ℚ)
      (isStatic : Bool)
  | rectangleCollider (width : ℚ) (height : ℚ) (isSensor : Bool) (group : Int)
      (category : Nat) (mask : Nat)
  | plain (payload : Nat)
deriving DecidableEq

/-- A component instance (engine/src/ecs/component.ts). The nonce models JS
object identity of the instance, so that replacing a component with a new
instance is observable. -/
structure Component where
  componentId : Nat
  nonce : Nat
  data : ComponentData
deriving DecidableEq

def Transform.COMPONENT_ID : Nat := 191

def CircleCollider.COMPONENT_ID : Nat := 192

def RectangleCollider.COMPONENT_ID : Nat := 193

def PolygonCollider.COMPONENT_ID : Nat := 194

def Rigidbody.COMPONENT_ID : Nat := 196

/-- getComponentIdFromInstance: the source converts the numeric id to a
decimal string to key the component map; decimal conversion is injective on
naturals, so the map is keyed directly by the numeric id here. -/
def getComponentIdFromInstance (c : Component) : Nat := c.componentId

/-- getComponentIdFromConstructor, with the same keying convention. -/
def getComponentIdFromConstructor (n : Nat) : Nat := n

/-- An entity (engine/src/ecs/entity.ts): a stable string id plus a MapSchema
of components keyed by component type id. -/
structure Entity where
  id : String
  components : List (Nat × Component)
deriving DecidableEq

/-- Entity.addComponent: components.set replaces an existing component of the
same type. -/
def Entity.addComponent (e : Entity) (c : Component) : Entity :=
  { e with components := mapSet e.components (getComponentIdFromInstance c) c }

/-- Entity.removeComponent: no-op when the component is absent. -/
def Entity.removeComponent (e : Entity) (ctor : Nat) : Entity :=
  if mapHas e.components (getComponentIdFromConstructor ctor) then
    { e with components := mapDelete e.components (getComponentIdFromConstructor ctor) }
  else e

def Entity.hasComponent (e : Entity) (ctor : Nat) : Bool :=
  mapHas e.components (getComponentIdFromConstructor ctor)

/-- Entity.getComponent: throws when the entity lacks the component. -/
def Entity.getComponent (e : Entity) (ctor : Nat) : Except String Component :=
  match mapGet e.components (getComponentIdFromConstructor ctor) with
  | none => errorAndThrow "ECS" "Entity does not have component"
  | some c => Except.ok c

/-- Entity.matchesQuery: the entity has every component type of the query. -/
def Entity.matchesQuery (e : Entity) (q : List Nat) : Bool :=
  q.all (fun ctor => Entity.hasComponent e ctor)

/-- SystemType (engine/src/ecs/system.ts). -/
inductive SystemType
  | SERVER
  | CLIENT
  | SERVER_AND_CLIENT
deriving DecidableEq

/-- A registered system. The sid field models JS object identity (the
registry compares systems by reference). hasUpdate and hasFixedUpdate record
whether the optional callbacks are present. -/
structure System where
  sid : Nat
  type : SystemType
  query : List Nat
  priority : Int
  hasUpdate : Bool
  hasFixedUpdate : Bool
deriving DecidableEq

inductive RegistryType
  | SERVER
  | CLIENT
deriving DecidableEq

/-- The registry state (engine/src/ecs/registry.ts). nextId models the
Entity.nextId counter that creates fresh entity ids. -/
structure Registry where
  type : RegistryType
  entities : List (String × Entity)
  systems : List System
  entityQueries : List (List Nat)
  queryEntities : List (String × List String)
  nextId : Nat
deriving DecidableEq

/-- JS default string comparison (code-unit order), as used by
Array.prototype.sort on the id strings of a query key. -/
def strLe (a b : String) : Bool := !(compare a b == Ordering.gt)

/-- Registry.getEntityQueryKey: the sorted, comma-joined component id strings
of a query, canonical per component set. -/
def getEntityQueryKey (q : List Nat) : String :=
  String.intercalate "," (List.mergeSort (q.map toString) strLe)

/-- The queryEntities.get(key)!.add(id) step. In every reachable registry
state the key of each registered query is present in queryEntities, so the
default branch is never consulted. -/
def qeAdd (qe : List (String × List String)) (k x : String) : List (String × List String) :=
  mapSet qe k (setAdd ((mapGet qe k).getD []) x)

/-- The queryEntities.get(key)!.delete(id) step, same keying remark as qeAdd. -/
def qeDel (qe : List (String × List String)) (k x : String) : List (String × List String) :=
  mapSet qe k (setDelete ((mapGet qe k).getD []) x)

/-- Registry.updateEntityMapsForEntity: re-evaluates one entity against every
registered query, adding or removing its id from each result set. -/
def Registry.updateEntityMapsForEntity (r : Registry) (e : Entity) : Registry :=
  { r with queryEntities := r.entityQueries.foldl (fun qe q =>
      if Entity.matchesQuery e q then qeAdd qe (getEntityQueryKey q) e.id
      else qeDel qe (getEntityQueryKey q) e.id) r.queryEntities }

/-- Registry.deleteEntityFromEntityMaps, for a present entity argument. -/
def Registry.deleteEntityFromEntityMaps (r : Registry) (e : Entity) : Registry :=
  { r with queryEntities := r.entityQueries.foldl (fun qe q =>
      qeDel qe (getEntityQueryKey q) e.id) r.queryEntities }

/-- Registry.getAllEntityQueries: the distinct system queries, first
occurrence order, deduplicated by query key. -/
def getAllEntityQueries (systems : List System) : List (List Nat) :=
  (systems.foldl (fun acc s =>
      let k := getEntityQueryKey s.query
      if acc.2.contains k then acc else (acc.1 ++ [s.query], acc.2 ++ [k]))
    (([] : List (List Nat)), ([] : List String))).1

/-- Registry.updateEntityMaps: recompute the distinct queries, reset every
result set, then re-add every matching entity. -/
def Registry.updateEntityMaps (r : Registry) : Registry :=
  let qs := getAllEntityQueries r.systems
  let qe0 := qs.foldl (fun qe q => mapSet qe (getEntityQueryKey q) []) []
  let qe := r.entities.foldl (fun qe p =>
      qs.foldl (fun qe q =>
        if Entity.matchesQuery p.2 q then qeAdd qe (getEntityQueryKey q) p.2.id else qe) qe)
    qe0
  { r with entityQueries := qs, queryEntities := qe }

/-- Registry.create: inserts a fresh entity; on the server the query result
sets are updated immediately. -/
def Registry.create (r : Registry) : Registry × String :=
  let eid := toString r.nextId
  let e : Entity := { id := eid, components := [] }
  let r1 := { r with entities := mapSet r.entities eid e, nextId := r.nextId + 1 }
  match r1.type with
  | RegistryType.SERVER => (r1.updateEntityMapsForEntity e, eid)
  | RegistryType.CLIENT => (r1, eid)

/-- Registry.destroy. The source deletes the entity from the map and then, on
the server, calls onEntityDestroyed with this.entities.get(id)!, which at that
point is undefined; deleteEntityFromEntityMaps then reads entity.id inside its
loop over entityQueries, raising a TypeError unless that loop is empty. The
returned state keeps the mutations performed before the throw. -/
def Registry.destroy (r : Registry) (id : String) : Registry × Except String Unit :=
  if !(mapHas r.entities id) then
    (r, errorAndThrow "Registry" "Entity not found in registry.")
  else
    let r1 := { r with entities := mapDelete r.entities id }
    match r1.type with
    | RegistryType.SERVER =>
      if r1.entityQueries.isEmpty then (r1, Except.ok ())
      else (r1, Except.error "TypeError: Cannot read properties of undefined (reading id)")
    | RegistryType.CLIENT => (r1, Except.ok ())

def Registry.has (r : Registry) (id : String) : Bool :=
  mapHas r.entities id

/-- Registry.has(id, component): throws when the entity is unknown. -/
def Registry.hasComponent (r : Registry) (id : String) (ctor : Nat) : Except String Bool :=
  match mapGet r.entities id with
  | none => errorAndThrow "Registry" "Entity not found in registry."
  | some e => Except.ok (Entity.hasComponent e ctor)

/-- Registry.add: throws when the entity is unknown, otherwise stores the
component (replacing any previous one of the same type id) and, on the server,
re-evaluates the query result sets for the entity. -/
def Registry.add (r : Registry) (id : String) (c : Component) :
    Registry × Except String Component :=
  match mapGet r.entities id with
  | none => (r, errorAndThrow "Registry" "Entity not found in registry.")
  | some e =>
    let e1 := Entity.addComponent e c
    let r1 := { r with entities := mapSet r.entities id e1 }
    match r1.type with
    | RegistryType.SERVER => (r1.updateEntityMapsForEntity e1, Except.ok c)
    | RegistryType.CLIENT => (r1, Except.ok c)

/-- Registry.remove: throws when the entity is unknown; removing an absent
component is a no-op. -/
def Registry.remove (r : Registry) (id : String) (ctor : Nat) :
    Registry × Except String Unit :=
  match mapGet r.entities id with
  | none => (r, errorAndThrow "Registry" "Entity not found in registry.")
  | some e =>
    let e1 := Entity.removeComponent e ctor
    let r1 := { r with entities := mapSet r.entities id e1 }
    match r1.type with
    | RegistryType.SERVER => (r1.updateEntityMapsForEntity e1, Except.ok ())
    | RegistryType.CLIENT => (r1, Except.ok ())

/-- Registry.get(id): throws when the entity is unknown. -/
def Registry.getEntity (r : Registry) (id : String) : Except String Entity :=
  match mapGet r.entities id with
  | none => errorAndThrow "Registry" "Entity not found in registry."
  | some e => Except.ok e

/-- Registry.get(id, component): throws when the entity is unknown or lacks
the component. -/
def Registry.getComponent (r : Registry) (id : String) (ctor : Nat) :
    Except String Component :=
  match mapGet r.entities id with
  | none => errorAndThrow "Registry" "Entity not found in registry."
  | some e => Entity.getComponent e ctor

/-- Registry.doesSystemTypeMatch. -/
def Registry.doesSystemTypeMatch (r : Registry) (s : System) : Bool :=
  s.type == SystemType.SERVER_AND_CLIENT
    || (s.type == SystemType.SERVER && r.type == RegistryType.SERVER)
    || (s.type == SystemType.CLIENT && r.type == RegistryType.CLIENT)

/-- The systems.sort((a, b) => b.priority - a.priority) call: a stable sort
into descending priority order. -/
def sortSystems (systems : List System) : List System :=
  List.mergeSort systems (fun a b => decide (b.priority ≤ a.priority))

/-- Registry.addSystem: a system whose type does not match the registry type
is silently not added; adding a system twice throws; otherwise the system list
is re-sorted by descending priority and the query maps are rebuilt. -/
def Registry.addSystem (r : Registry) (s : System) : Registry × Except String Unit :=
  if !(r.doesSystemTypeMatch s) then (r, Except.ok ())
  else if r.systems.any (fun t => t.sid == s.sid) then
    (r, errorAndThrow "Registry" "System already in registry.")
  else
    let r1 := { r with systems := sortSystems (r.systems ++ [s]) }
    (r1.updateEntityMaps, Except.ok ())

/-- Registry.update invokes each present update callback in stored (priority)
order; this is the invoked systems in invocation order. -/
def Registry.updateRun (r : Registry) : List System :=
  r.systems.filter (fun s => s.hasUpdate)

/-- Registry.fixedUpdate, same convention as updateRun. -/
def Registry.fixedUpdateRun (r : Registry) : List System :=
  r.systems.filter (fun s => s.hasFixedUpdate)

/-- The ActionsManager (engine/src/core/actions.ts). Handlers mutate the
engine; here a handler is named by a Nat and an invocation is recorded as an
event, so that ordering and call counts are observable. Validators are the
registered predicate functions themselves. -/
structure ActionsManager (T D : Type) where
  handlers : List (T × Nat)
  validators : List (T × (T → D → Bool))
  actionQueue : List (T × D)

/-- ActionsManager.enqueue. The delay argument is tested for truthiness
(if (delay) ...): a present nonzero delay schedules a setTimeout append,
returned as the second component; no delay or a zero delay appends to the
pending queue immediately. -/
def ActionsManager.enqueue {T D : Type} (m : ActionsManager T D) (a : T) (d : D)
    (delay : Option ℚ) : ActionsManager T D × Option (ℚ × T × D) :=
  match delay with
  | some t =>
    if t == 0 then ({ m with actionQueue := m.actionQueue ++ [(a, d)] }, none)
    else (m, some (t, a, d))
  | none => ({ m with actionQueue := m.actionQueue ++ [(a, d)] }, none)

/-- ActionsManager.fire: handler map miss is a silent return; then the
validator map miss or a rejecting validator is a silent return; otherwise the
handler runs once. The result is the recorded invocation, if any. -/
def ActionsManager.fireResult {T D : Type} [BEq T] (m : ActionsManager T D)
    (a : T) (d : D) : Option (Nat × T × D) :=
  match mapGet m.handlers a with
  | none => none
  | some h =>
    match mapGet m.validators a with
    | none => none
    | some v => if v a d then some (h, a, d) else none

/-- ActionsManager.flush: fires every pending action in FIFO order, then sets
the queue length to 0. Returns the post state and the handler invocations in
order. -/
def ActionsManager.flush {T D : Type} [BEq T] (m : ActionsManager T D) :
    ActionsManager T D × List (Nat × T × D) :=
  ({ m with actionQueue := [] }, m.actionQueue.filterMap (fun p => m.fireResult p.1 p.2))

/-- ActionsManager.register: sets the handler and the validator together,
replacing any previous registration. -/
def ActionsManager.register {T D : Type} [BEq T] (m : ActionsManager T D) (a : T)
    (h : Nat) (v : T → D → Bool) : ActionsManager T D :=
  { m with handlers := mapSet m.handlers a h, validators := mapSet m.validators a v }

/-- ActionsManager.unregister: deletes the handler and the validator. -/
def ActionsManager.unregister {T D : Type} [BEq T] (m : ActionsManager T D) (a : T) :
    ActionsManager T D :=
  { m with handlers := mapDelete m.handlers a, validators := mapDelete m.validators a }

/-- One observable step of a fixed tick (Engine.fixedUpdate in
engine/src/engine.ts): the single actions.flush call, each handler run inside
it, each pre and post fixed-update callback, and each system fixedUpdate
callback. -/
inductive TickEvent (T : Type)
  | flushCall
  | handlerRun (h : Nat) (a : T)
  | preFixedCallback (i : Nat)
  | systemFixedUpdate (sid : Nat)
  | postFixedCallback (i : Nat)
deriving DecidableEq

def TickEvent.isFlushCall {T : Type} : TickEvent T → Bool
  | TickEvent.flushCall => true
  | _ => false

/-- Events belonging to the action-flush phase of a tick. -/
def TickEvent.isFlushPhase {T : Type} : TickEvent T → Bool
  | TickEvent.flushCall => true
  | TickEvent.handlerRun _ _ => true
  | _ => false

def TickEvent.isSystemFixed {T : Type} : TickEvent T → Bool
  | TickEvent.systemFixedUpdate _ => true
  | _ => false

/-- The engine state needed for the fixed tick (engine/src/engine.ts). -/
structure EngineM (T D : Type) where
  started : Bool
  actions : ActionsManager T D
  registry : Registry
  preFixedCallbacks : List Nat
  postFixedCallbacks : List Nat

/-- Engine.fixedUpdate: does nothing when not started; otherwise flushes the
action queue once, runs the PRE_FIXED_UPDATE callbacks, the registry fixed
update (systems in priority order), then the POST_FIXED_UPDATE callbacks. -/
def EngineM.fixedUpdate {T D : Type} [BEq T] (e : EngineM T D) :
    EngineM T D × List (TickEvent T) :=
  if !e.started then (e, [])
  else
    let fl := e.actions.flush
    let e1 := { e with actions := fl.1 }
    (e1,
      (TickEvent.flushCall :: fl.2.map (fun t => TickEvent.handlerRun t.1 t.2.1))
        ++ e1.preFixedCallbacks.map TickEvent.preFixedCallback
        ++ (e1.registry.fixedUpdateRun.map (fun s => TickEvent.systemFixedUpdate s.sid))
        ++ e1.postFixedCallbacks.map TickEvent.postFixedCallback)

/-- A matter-js body as the raycast module sees it: part vertex lists, the
owning entity recorded in body.plugin.entity, and the collision filter group. -/
structure TBody where
  parts : List (List Vec2)
  pluginEntity : Option String
  collisionFilterGroup : Int
deriving DecidableEq

/-- The internal ray type of engine/src/physics/raycast.ts: start point, end
point and, for body edges, the edge vertices. -/
structure RRay where
  start : Vec2
  endPt : Vec2
  verts : List Vec2
deriving DecidableEq

/-- A ray collision record: body, intersection point, surface normal, edge
vertices and owning entity id (body.plugin.entity, defaulting to the empty
string). -/
structure RayCol where
  body : TBody
  point : Vec2
  normal : Vec2
  verts : List Vec2
  entity : String
deriving DecidableEq

/-- The RayCol constructor. -/
def RayCol.make (b : TBody) (p n : Vec2) (vs : List Vec2) : RayCol :=
  { body := b, point := p, normal := n, verts := vs, entity := b.pluginEntity.getD "" }

/-- ray.bodyEdges: the edges of every part, iterating parts and vertices from
the last index down, each edge closing back to vertex 0. -/
def bodyEdges (b : TBody) : List RRay :=
  b.parts.reverse.foldl (fun acc part =>
    acc ++ ((List.range part.length).reverse.map (fun k =>
      let k2 := if k + 1 ≥ part.length then 0 else k + 1
      let v1 := (part.get? k).getD ⟨0, 0⟩
      let v2 := (part.get? k2).getD ⟨0, 0⟩
      { start := v1, endPt := v2, verts := [v1, v2] }))) []

/-- ray.bodyCollisions. The geometric kernels (ray.collisionPoint, which uses
float slope arithmetic with an epsilon comparison, and ray.calculateNormal,
which uses trigonometric rotation) are taken as parameters; every claim proved
below holds for all kernels. -/
def bodyCollisions (colP : RRay → RRay → Option Vec2) (normalK : RRay → Vec2 → Vec2)
    (rayA : RRay) (b : TBody) : List RayCol :=
  (bodyEdges b).reverse.foldl (fun acc edge =>
    match colP rayA edge with
    | none => acc
    | some p => acc ++ [RayCol.make b p (normalK edge rayA.start) edge.verts]) []

/-- raycast (engine/src/physics/raycast.ts). queryFn stands for the external
Matter.Query.ray broad phase (the bodyA fields of its result records). Results
whose entity is the empty string are skipped; with sortFlag true the
collisions are sorted by distance from the ray start (squared distance orders
identically to distance). -/
def raycast (queryFn : List TBody → Vec2 → Vec2 → List TBody)
    (colP : RRay → RRay → Option Vec2) (normalK : RRay → Vec2 → Vec2)
    (bodies : List TBody) (s e : Vec2) (sortFlag : Bool) : List RayCol :=
  let query := queryFn bodies s e
  let raytest : RRay := { start := s, endPt := e, verts := [] }
  let cols := query.reverse.foldl (fun acc b =>
    acc ++ ((bodyCollisions colP normalK raytest b).reverse.filter
      (fun c => !(c.entity == "")))) []
  if sortFlag then
    List.mergeSort cols (fun a b => decide (Vec2.sqDist a.point s ≤ Vec2.sqDist b.point s))
  else cols

/-- PhysicsWorld.queryRay(start, end): raycast over the current world bodies
with the default sort flag (true). -/
def PhysicsWorld.queryRayEnd (queryFn : List TBody → Vec2 → Vec2 → List TBody)
    (colP : RRay → RRay → Option Vec2) (normalK : RRay → Vec2 → Vec2)
    (bodies : List TBody) (s e : Vec2) : List RayCol :=
  raycast queryFn colP normalK bodies s e true

/-- PhysicsWorld.queryRay(origin, dir, len): delegates to the start/end
overload with end = origin + dir * len. -/
def PhysicsWorld.queryRay (queryFn : List TBody → Vec2 → Vec2 → List TBody)
    (colP : RRay → RRay → Option Vec2) (normalK : RRay → Vec2 → Vec2)
    (bodies : List TBody) (origin dir : Vec2) (len : ℚ) : List RayCol :=
  PhysicsWorld.queryRayEnd queryFn colP normalK bodies origin
    (Vec2.add origin (Vec2.mul dir len))

/-- game/src/actions.ts movement constants. -/
def PLAYER_MOVE_FORCE : ℚ := 1 / 2

def PLAYER_AIR_MOVE_FORCE : ℚ := PLAYER_MOVE_FORCE / 2

def PLAYER_JUMP_FORCE : ℚ := 7 / 5

/-- The per-connection player record (state/src/Player.ts): the controlled
entity id and the last movement direction. -/
structure Player where
  entity : String
  dir : Vec2
deriving DecidableEq

/-- The MOVE_PLAYER payload. The wire payload is loosely typed, so both fields
may be absent, which the handler guards against. -/
structure MovePlayerData where
  player : Option Player
  dir : Option Vec2

/-- Rigidbody.setVelocity: writes the velocity field of the component (the
mirror write into the matter body is backend state outside this model). The
write only applies to a rigidbody-shaped component; under the engine schema a
component stored under Rigidbody.COMPONENT_ID always is one. -/
def Rigidbody.setVelocity (c : Component) (v : Vec2) : Component :=
  match c.data with
  | ComponentData.rigidbody _ av de i re f fa fs st =>
    { c with data := ComponentData.rigidbody v av de i re f fa fs st }
  | d => { c with data := d }

/-- An in-place mutation of a component held by an entity in the registry: the
TS handler holds the same object that the component map holds, so a setter is
visible through the registry. -/
def Registry.setComponentData (r : Registry) (id : String) (c : Component) : Registry :=
  match mapGet r.entities id with
  | none => r
  | some e =>
    let e1 := { e with components := mapSet e.components (getComponentIdFromInstance c) c }
    { r with entities := mapSet r.entities id e1 }

/-- The jump branch of movePlayerAction: when dir.y is 1 and the ground ray
reported a hit, the velocity becomes (unchanged x, PLAYER_JUMP_FORCE). -/
def movePlayerJumpStep (isGrounded : Bool) (dir velocity : Vec2) : Vec2 :=
  if dir.y == 1 && isGrounded then { x := velocity.x, y := PLAYER_JUMP_FORCE }
  else velocity

/-- The result of running the MOVE_PLAYER handler: the post registry, the post
player record, and the error of a propagated throw, if any. -/
structure MoveOut where
  registry : Registry
  player : Option Player
  err : Option String

/-- movePlayerAction (game/src/actions.ts). Faithful to the source order:
null guards, player.dir write, store membership check, component lookups
(each can throw), the downward ground ray of length (collider.height / 2) *
1.02, the jump branch, then the horizontal move write. The mismatch error
branches on the component data shapes are unreachable under the engine schema
(a component stored under an engine id has that shape). -/
def movePlayerAction (groundGroup : Int)
    (queryFn : List TBody → Vec2 → Vec2 → List TBody)
    (colP : RRay → RRay → Option Vec2) (normalK : RRay → Vec2 → Vec2)
    (bodies : List TBody) (r : Registry) (data : MovePlayerData) : MoveOut :=
  match data.player, data.dir with
  | some player0, some dir =>
    let player := { player0 with dir := dir }
    if !(r.has player.entity) then { registry := r, player := some player, err := none }
    else
      match r.getComponent player.entity Rigidbody.COMPONENT_ID with
      | Except.error m => { registry := r, player := some player, err := some m }
      | Except.ok rb =>
        match r.getComponent player.entity Transform.COMPONENT_ID with
        | Except.error m => { registry := r, player := some player, err := some m }
        | Except.ok tf =>
          match r.getComponent player.entity RectangleCollider.COMPONENT_ID with
          | Except.error m => { registry := r, player := some player, err := some m }
          | Except.ok col =>
            match rb.data, tf.data, col.data with
            | ComponentData.rigidbody v _ _ _ _ _ _ _ _,
              ComponentData.transform pos _ _ _,
              ComponentData.rectangleCollider _ h _ _ _ _ =>
              let groundCollisions := PhysicsWorld.queryRay queryFn colP normalK bodies
                pos ⟨0, -1⟩ (h / 2 * (51 / 50))
              let isGrounded := groundCollisions.any
                (fun c => c.body.collisionFilterGroup == groundGroup)
              let v1 := movePlayerJumpStep isGrounded dir v
              let rb1 := Rigidbody.setVelocity rb v1
              let r1 := r.setComponentData player.entity rb1
              let force := if !isGrounded then PLAYER_AIR_MOVE_FORCE else PLAYER_MOVE_FORCE
              let v2 : Vec2 :=
                { x := if !(dir.x == 0) then dir.x * force else v1.x, y := v1.y }
              let rb2 := Rigidbody.setVelocity rb1 v2
              let r2 := r1.setComponentData player.entity rb2
              { registry := r2, player := some player, err := none }
            | _, _, _ =>
              { registry := r, player := some player, err := some "schema mismatch" }
  | _, _ => { registry := r, player := data.player, err := none }

/-- The registered validator applied to a payload, false when no validator is
registered for the action type. -/
def ActionsManager.validatorAccepts {T D : Type} [BEq T] (m : ActionsManager T D)
    (a : T) (d : D) : Bool :=
  match mapGet m.validators a with
  | none => false
  | some v => v a d

/-- C6 witness engine: one pending action with a registered handler, one
system with a fixedUpdate callback. -/
def engineC6 : EngineM Nat Nat :=
  { started := true
    actions := ActionsManager.mk [(0, 10)] [(0, fun _ _ => true)] [(0, 1)]
    registry :=
      { type := RegistryType.SERVER
        entities := []
        systems := [{ sid := 3, type := SystemType.SERVER_AND_CLIENT, query := [],
                      priority := 0, hasUpdate := true, hasFixedUpdate := true }]
        entityQueries := [[]]
        queryEntities := [("", [])]
        nextId := 0 }
    preFixedCallbacks := [7]
    postFixedCallbacks := [8] }

/-- C7 witness systems: one client-only system against a server registry, one
shared system that is accepted. -/
def sysClientOnly : System :=
  { sid := 1, type := SystemType.CLIENT, query := [], priority := 5,
    hasUpdate := true, hasFixedUpdate := false }

def sysShared : System :=
  { sid := 2, type := SystemType.SERVER_AND_CLIENT, query := [], priority := 3,
    hasUpdate := true, hasFixedUpdate := true }

def regC7 : Registry :=
  { type := RegistryType.SERVER, entities := [], systems := [],
    entityQueries := [], queryEntities := [], nextId := 0 }

/-- C2 witness entity: holds only a Transform component. -/
def entC2 : Entity :=
  Entity.mk "1"
    [(191, Component.mk 191 0 (ComponentData.transform (Vec2.mk 0 0) 0 (Vec2.mk 1 1) 0))]

def regC2 : Registry :=
  { type := RegistryType.SERVER, entities := [("1", entC2)], systems := [],
    entityQueries := [], queryEntities := [], nextId := 2 }

def compC2 : Component :=
  { componentId := 196, nonce := 5, data := ComponentData.plain 0 }

/-- C3 witness: an entity with an existing Rigidbody-id component, replaced by
a new instance with a different nonce. -/
def entC3 : Entity :=
  Entity.mk "1" [(196, Component.mk 196 0 (ComponentData.plain 0))]

def regC3 : Registry :=
  Registry.mk RegistryType.SERVER [("1", entC3)] [] [] [] 2

def compC3 : Component :=
  Component.mk 196 1 (ComponentData.plain 7)

/-- C1 scenario: a server registry, one registered shared system whose query
is empty (so every entity matches), one created entity. -/
def sysC1 : System :=
  System.mk 1 SystemType.SERVER_AND_CLIENT [] 0 true true

def regC1 : Registry :=
  Registry.mk RegistryType.SERVER [] [] [] [] 0

def regC1a : Registry :=
  Registry.mk RegistryType.SERVER [] [sysC1] [[]] [("", [])] 0

def entC1 : Entity := Entity.mk "0" []

def regC1b : Registry :=
  Registry.mk RegistryType.SERVER [("0", entC1)] [sysC1] [[]] [("", ["0"])] 1

/-- C9 witness data: a trivial broad phase and geometric kernels, one ground
body in collision group 2 owned by entity g, and a player entity with
transform, rectangle collider and rigidbody. -/
def ggW : Int := 2

def qFnW : List TBody → Vec2 → Vec2 → List TBody := fun bodies _ _ => bodies

def cPW : RRay → RRay → Option Vec2 := fun _ _ => some (Vec2.mk 0 0)

def nKW : RRay → Vec2 → Vec2 := fun _ _ => Vec2.mk 0 1

def gBodyW : TBody := TBody.mk [[Vec2.mk 0 0]] (some "g") 2

def rbW : Component :=
  Component.mk 196 3 (ComponentData.rigidbody (Vec2.mk 0 0) 0 1 0 0 0 0 0 false)

def tfW : Component :=
  Component.mk 191 4 (ComponentData.transform (Vec2.mk 0 0) 0 (Vec2.mk 1 1) 0)

def clW : Component :=
  Component.mk 193 5 (ComponentData.rectangleCollider 2 2 false 2 1 0)

def peW : Entity := Entity.mk "p" [(191, tfW), (193, clW), (196, rbW)]

def regC9 : Registry := Registry.mk RegistryType.SERVER [("p", peW)] [] [] [] 0

def playerW : Player := Player.mk "p" (Vec2.mk 0 0)

def dirW : Vec2 := Vec2.mk 0 1

lemma mapGet_eq_none_of_not_has {κ α : Type} [BEq κ] (m : List (κ × α)) (k : κ)
    (h : mapHas m k = false) : mapGet m k = none := by
  unfold mapHas at h
  unfold mapGet
  rw [List.any_eq_false] at h
  rw [List.find?_eq_none.mpr]
  · rfl
  · intro x hx
    simpa using h x hx

lemma fireResult_proj {T D : Type} [BEq T] (m : ActionsManager T D) (a : T) (d : D)
    (t : Nat × T × D) (h : m.fireResult a d = some t) : t.2.1 = a ∧ t.2.2 = d := by
  unfold ActionsManager.fireResult at h
  cases hh : mapGet m.handlers a with
  | none => rw [hh] at h; exact absurd h (by simp)
  | some hd =>
    rw [hh] at h
    cases hv : mapGet m.validators a with
    | none => rw [hv] at h; exact absurd h (by simp)
    | some v =>
      rw [hv] at h
      dsimp only at h
      by_cases hacc : v a d = true
      · rw [if_pos hacc] at h
        cases h
        exact ⟨rfl, rfl⟩
      · rw [if_neg hacc] at h
        exact absurd h (by simp)

lemma flush_trace_eq {T D : Type} [BEq T] (m : ActionsManager T D) (l : List (T × D))
    (hall : ∀ p ∈ l, (m.fireResult p.1 p.2).isSome = true) :
    (l.filterMap (fun p => m.fireResult p.1 p.2)).map (fun t => (t.2.1, t.2.2)) = l := by
  induction l with
  | nil => rfl
  | cons p t ih =>
    have hp := hall p (by simp)
    obtain ⟨x, hx⟩ := Option.isSome_iff_exists.mp hp
    obtain ⟨hx1, hx2⟩ := fireResult_proj m p.1 p.2 x hx
    rw [List.filterMap_cons, hx, List.map_cons, hx1, hx2]
    rw [ih (fun q hq => hall q (by simp [hq]))]

/-- C4: all actions enqueued without delay before one flush run their handlers
in exactly the enqueue (FIFO) order within that flush; the queue is empty
afterwards; a second flush on the empty queue performs zero handler
invocations. -/
theorem c4_flush_fifo_order {T D : Type} [BEq T] (m : ActionsManager T D)
    (hall : ∀ p ∈ m.actionQueue, (m.fireResult p.1 p.2).isSome = true) :
    ((m.flush.2.map (fun t => (t.2.1, t.2.2))) = m.actionQueue) ∧
    m.flush.1.actionQueue = [] ∧
    (m.flush.1.flush).2 = [] :=
  ⟨flush_trace_eq m m.actionQueue hall, rfl, rfl⟩

/-- C4 witness: a concrete three-action queue, flushed once. -/
theorem c4_flush_fifo_order_witness :
    (∀ p ∈ ([((0 : Nat), (5 : Nat)), (1, 6), (0, 7)] : List (Nat × Nat)),
      ((ActionsManager.mk [(0, 10), (1, 11)]
        [(0, fun _ _ => true), (1, fun _ _ => true)]
        [(0, 5), (1, 6), (0, 7)]).fireResult p.1 p.2).isSome = true) ∧
    (((ActionsManager.mk [((0 : Nat), (10 : Nat)), (1, 11)]
        [(0, fun _ _ => true), (1, fun _ _ => true)]
        ([(0, 5), (1, 6), (0, 7)] : List (Nat × Nat))).flush.2.map
        (fun t => (t.2.1, t.2.2))) = [(0, 5), (1, 6), (0, 7)]) := by
  refine ⟨by decide, ?_⟩
  exact (c4_flush_fifo_order _ (by decide)).1

lemma fireResult_characterization {T D : Type} [BEq T] (m : ActionsManager T D)
    (a : T) (d : D) (v : T → D → Bool) (hv : mapGet m.validators a = some v) :
    (m.fireResult a d).isSome = ((mapGet m.handlers a).isSome && v a d) := by
  unfold ActionsManager.fireResult
  cases hh : mapGet m.handlers a with
  | none => rfl
  | some hd =>
    rw [hv]
    by_cases hacc : v a d = true
    · simp [hacc]
    · simp [hacc]

lemma flush_count_aux {T D : Type} [BEq T] [LawfulBEq T] [BEq D] [LawfulBEq D]
    (m : ActionsManager T D) (a : T) (d : D) (hd0 : Nat)
    (hh : mapGet m.handlers a = some hd0)
    (hs : (mapGet m.validators a).isSome = true) :
    ∀ l : List (T × D),
      ((l.filterMap (fun p => m.fireResult p.1 p.2)).countP
        (fun t => t.2.1 == a && t.2.2 == d)) =
      (if m.validatorAccepts a d then l.countP (fun p => p.1 == a && p.2 == d) else 0) := by
  intro l
  induction l with
  | nil => cases hacc : m.validatorAccepts a d <;> simp [hacc]
  | cons p t ih =>
    obtain ⟨v, hv⟩ := Option.isSome_iff_exists.mp hs
    by_cases hpq : (p.1 == a && p.2 == d) = true
    · obtain ⟨hp1, hp2⟩ := by simpa using hpq
      have hfr : m.fireResult p.1 p.2 = m.fireResult a d := by rw [hp1, hp2]
      have hacc : m.validatorAccepts a d = v a d := by
        unfold ActionsManager.validatorAccepts
        rw [hv]
      by_cases hva : v a d = true
      · have : m.fireResult a d = some (hd0, a, d) := by
          unfold ActionsManager.fireResult
          rw [hh, hv]
          dsimp only
          rw [if_pos hva]
        rw [List.filterMap_cons, hfr, this]
        rw [List.countP_cons_of_pos _ _ (by simp)]
        rw [List.countP_cons_of_pos _ _ (by simpa using hpq)]
        rw [ih, hacc, if_pos hva, if_pos hva]
      · have : m.fireResult a d = none := by
          unfold ActionsManager.fireResult
          rw [hh, hv]
          dsimp only
          rw [if_neg hva]
        rw [List.filterMap_cons, hfr, this, ih, hacc, if_neg hva, if_neg hva]
    · rw [List.filterMap_cons]
      cases hf : m.fireResult p.1 p.2 with
      | none => rw [ih, List.countP_cons_of_neg _ _ (by simpa using hpq)]
      | some t' =>
        obtain ⟨ht1, ht2⟩ := fireResult_proj m p.1 p.2 t' hf
        have hpred : (t'.2.1 == a && t'.2.2 == d) = false := by
          rw [ht1, ht2]
          simpa using hpq
        rw [List.countP_cons_of_neg _ _ (by simp [hpred])]
        rw [ih, List.countP_cons_of_neg _ _ (by simpa using hpq)]

/-- C5: during a flush, a handler runs for an enqueued action iff the action
type has a registered handler and the registered validator accepts the
payload; an unregistered action type is silently skipped; an accepted payload
reaches the handler exactly once per enqueued occurrence per flush, a
rejected one never. The hypothesis records that handlers and validators are
registered in pairs, which register and unregister maintain. -/
theorem c5_validator_gating {T D : Type} [BEq T] [LawfulBEq T] [BEq D] [LawfulBEq D]
    (m : ActionsManager T D) (a : T) (d : D) (hd0 : Nat)
    (hs : ∀ b : T, (mapGet m.handlers b).isSome = (mapGet m.validators b).isSome) :
    (∀ v : T → D → Bool, mapGet m.validators a = some v →
      (m.fireResult a d).isSome = ((mapGet m.handlers a).isSome && v a d)) ∧
    (mapGet m.handlers a = none → m.fireResult a d = none) ∧
    (mapGet m.handlers a = some hd0 →
      ((m.flush.2.countP (fun t => t.2.1 == a && t.2.2 == d)) =
        (if m.validatorAccepts a d then m.actionQueue.countP (fun p => p.1 == a && p.2 == d)
         else 0))) := by
  refine ⟨fun v hv => fireResult_characterization m a d v hv, ?_, ?_⟩
  · intro hnone
    unfold ActionsManager.fireResult
    rw [hnone]
  · intro hh
    have hvs : (mapGet m.validators a).isSome = true := by
      rw [← hs a, hh]
      rfl
    exact flush_count_aux m a d hd0 hh hvs m.actionQueue

/-- C5 witness: a concrete manager with one registered action type (true) and
one unregistered type (false); the queue holds an accepted payload, a
rejected payload and an unregistered action. -/
theorem c5_validator_gating_witness :
    (∀ b : Bool, (mapGet (ActionsManager.mk [(true, 10)]
        [(true, fun _ d => d == (5 : Nat))]
        [(true, 5), (true, 6), (false, 5)]).handlers b).isSome =
      (mapGet (ActionsManager.mk [((true : Bool), (10 : Nat))]
        [(true, fun _ d => d == (5 : Nat))]
        ([(true, 5), (true, 6), (false, 5)] : List (Bool × Nat))).validators b).isSome) ∧
    ((ActionsManager.mk [((true : Bool), (10 : Nat))]
        [(true, fun _ d => d == (5 : Nat))]
        ([(true, 5), (true, 6), (false, 5)] : List (Bool × Nat))).flush.2.countP
      (fun t => t.2.1 == true && t.2.2 == 5)) = 1 := by
  refine ⟨by decide, ?_⟩
  have h := (c5_validator_gating
    (ActionsManager.mk [((true : Bool), (10 : Nat))]
      [(true, fun _ d => d == (5 : Nat))]
      ([(true, 5), (true, 6), (false, 5)] : List (Bool × Nat)))
    true 5 10 (by decide)).2.2 (by decide)
  rw [h]
  decide

/-- C10: enqueue with an explicit delay of 0 milliseconds behaves exactly as
enqueue with no delay argument: the action is appended to the pending queue
immediately and no timeout is scheduled. -/
theorem c10_enqueue_zero_delay_immediate {T D : Type} (m : ActionsManager T D)
    (a : T) (d : D) :
    m.enqueue a d (some 0) = m.enqueue a d none ∧
    (m.enqueue a d (some 0)).1.actionQueue = m.actionQueue ++ [(a, d)] ∧
    (m.enqueue a d (some 0)).2 = none := by
  unfold ActionsManager.enqueue
  norm_num

/-- C6: in a started engine, one fixed tick flushes the action queue exactly
once, and the whole flush phase (the flush call and every handler run inside
it) comes strictly before every system fixedUpdate callback of that tick. -/
lemma pairwise_left_false {A : Type} (P Q : A → Bool) :
    ∀ l : List A, (∀ x ∈ l, P x = false) →
      l.Pairwise (fun x y => P x = true → Q y = false)
  | [], _ => List.Pairwise.nil
  | a :: t, h => by
    constructor
    · intro b hb hPa
      rw [h a (by simp)] at hPa
      cases hPa
    · exact pairwise_left_false P Q t (fun x hx => h x (by simp [hx]))

lemma pairwise_right_false {A : Type} (P Q : A → Bool) :
    ∀ l : List A, (∀ y ∈ l, Q y = false) →
      l.Pairwise (fun x y => P x = true → Q y = false)
  | [], _ => List.Pairwise.nil
  | a :: t, h => by
    constructor
    · intro b hb _
      exact h b (by simp [hb])
    · exact pairwise_right_false P Q t (fun x hx => h x (by simp [hx]))

/-- C6: in a started engine, one fixed tick flushes the action queue exactly
once, and the whole flush phase (the flush call and every handler run inside
it) comes strictly before every system fixedUpdate callback of that tick. -/
theorem c6_flush_before_fixed_systems {T D : Type} [BEq T] (e : EngineM T D)
    (h : e.started = true) :
    (e.fixedUpdate.2.countP TickEvent.isFlushCall = 1) ∧
    e.fixedUpdate.2.Pairwise
      (fun x y => TickEvent.isSystemFixed x = true → TickEvent.isFlushPhase y = false) := by
  unfold EngineM.fixedUpdate
  rw [h]
  rw [if_neg (by simp)]
  dsimp only
  constructor
  · simp [TickEvent.isFlushCall]
  · rw [List.append_assoc]
    rw [List.pairwise_append]
    refine ⟨?_, ?_, ?_⟩
    · apply pairwise_left_false
      intro x hx
      rcases List.mem_append.mp hx with hx | hx
      · rcases List.mem_cons.mp hx with rfl | hx
        · rfl
        · obtain ⟨t, ht, rfl⟩ := List.mem_map.mp hx
          rfl
      · obtain ⟨t, ht, rfl⟩ := List.mem_map.mp hx
        rfl
    · apply pairwise_right_false
      intro y hy
      rcases List.mem_append.mp hy with hy | hy
      · obtain ⟨t, ht, rfl⟩ := List.mem_map.mp hy
        rfl
      · obtain ⟨t, ht, rfl⟩ := List.mem_map.mp hy
        rfl
    · intro x hx y hy
      intro hPx
      have : TickEvent.isSystemFixed x = false := by
        rcases List.mem_append.mp hx with hx | hx
        · rcases List.mem_cons.mp hx with rfl | hx
          · rfl
          · obtain ⟨t, ht, rfl⟩ := List.mem_map.mp hx
            rfl
        · obtain ⟨t, ht, rfl⟩ := List.mem_map.mp hx
          rfl
      rw [this] at hPx
      cases hPx

/-- C6 witness: the claim instantiated at a concrete started engine. -/
theorem c6_flush_before_fixed_systems_witness :
    (engineC6.fixedUpdate.2.countP TickEvent.isFlushCall = 1) ∧
    engineC6.fixedUpdate.2.Pairwise
      (fun x y => TickEvent.isSystemFixed x = true → TickEvent.isFlushPhase y = false) :=
  c6_flush_before_fixed_systems engineC6 rfl

lemma sortSystems_sorted (l : List System) :
    (sortSystems l).Pairwise (fun a b => b.priority ≤ a.priority) := by
  have h : (List.mergeSort l (fun a b => decide (b.priority ≤ a.priority))).Pairwise
      (fun a b => (decide (b.priority ≤ a.priority)) = true) :=
    List.sorted_mergeSort
      (fun a b c hab hbc => by
        simp only [decide_eq_true_eq] at *
        omega)
      (fun a b => by
        simp only [Bool.or_eq_true, decide_eq_true_eq]
        omega) l
  exact h.imp (fun hab => by simpa using hab)

/-- C7: a system whose scheduling category does not match the registry type is
silently not added (also on repeated calls); after a successful add the system
list is sorted by descending priority, and the update phase invokes exactly
the systems with an update callback, in that stored descending order. -/
theorem c7_addSystem_filter_and_priority_order (r : Registry) (s : System) :
    (r.doesSystemTypeMatch s = false →
      (r.addSystem s = (r, Except.ok ()) ∧
       ((r.addSystem s).1.addSystem s) = (r, Except.ok ()))) ∧
    (r.doesSystemTypeMatch s = true →
      (r.systems.any (fun t => t.sid == s.sid)) = false →
      ((r.addSystem s).1.systems.Pairwise (fun a b => b.priority ≤ a.priority) ∧
       (r.addSystem s).1.updateRun.Pairwise (fun a b => b.priority ≤ a.priority) ∧
       (r.addSystem s).1.updateRun = (r.addSystem s).1.systems.filter (fun t => t.hasUpdate) ∧
       (r.addSystem s).1.fixedUpdateRun.Pairwise (fun a b => b.priority ≤ a.priority) ∧
       (r.addSystem s).1.fixedUpdateRun =
         (r.addSystem s).1.systems.filter (fun t => t.hasFixedUpdate))) := by
  constructor
  · intro hmatch
    have h1 : r.addSystem s = (r, Except.ok ()) := by
      unfold Registry.addSystem
      rw [hmatch]
      rfl
    exact ⟨h1, by rw [h1]; exact h1⟩
  · intro hmatch hdup
    have hsys : (r.addSystem s).1.systems = sortSystems (r.systems ++ [s]) := by
      unfold Registry.addSystem
      rw [hmatch, hdup]
      rfl
    refine ⟨?_, ?_, rfl, ?_, rfl⟩
    · rw [hsys]
      exact sortSystems_sorted _
    · unfold Registry.updateRun
      rw [hsys]
      exact (sortSystems_sorted _).sublist (List.filter_sublist _)
    · unfold Registry.fixedUpdateRun
      rw [hsys]
      exact (sortSystems_sorted _).sublist (List.filter_sublist _)

/-- C7 witness: the claim instantiated at a server registry with a client-only
system (filtered) and a shared system (added and sorted). -/
theorem c7_addSystem_filter_and_priority_order_witness :
    (regC7.addSystem sysClientOnly = (regC7, Except.ok ()) ∧
     ((regC7.addSystem sysClientOnly).1.addSystem sysClientOnly) = (regC7, Except.ok ())) ∧
    ((regC7.addSystem sysShared).1.systems.Pairwise (fun a b => b.priority ≤ a.priority) ∧
     (regC7.addSystem sysShared).1.updateRun.Pairwise (fun a b => b.priority ≤ a.priority) ∧
     (regC7.addSystem sysShared).1.updateRun =
       (regC7.addSystem sysShared).1.systems.filter (fun t => t.hasUpdate) ∧
     (regC7.addSystem sysShared).1.fixedUpdateRun.Pairwise
       (fun a b => b.priority ≤ a.priority) ∧
     (regC7.addSystem sysShared).1.fixedUpdateRun =
       (regC7.addSystem sysShared).1.systems.filter (fun t => t.hasFixedUpdate)) :=
  ⟨(c7_addSystem_filter_and_priority_order regC7 sysClientOnly).1 (by decide),
   (c7_addSystem_filter_and_priority_order regC7 sysShared).2 (by decide) (by decide)⟩

/-- C2: for an entity id absent from the store, destroy, add, remove, get,
get-component and has-component all throw immediately and leave the state
unchanged; and for a present entity, get(id, componentType) throws when the
entity lacks a component of that type. -/
theorem c2_missing_entity_ops_error (r : Registry) (id id2 : String) (e : Entity)
    (c : Component) (ct ct2 : Nat)
    (h1 : mapHas r.entities id = false)
    (h2 : mapGet r.entities id2 = some e)
    (h3 : Entity.hasComponent e ct2 = false) :
    r.destroy id = (r, errorAndThrow "Registry" "Entity not found in registry.") ∧
    r.add id c = (r, errorAndThrow "Registry" "Entity not found in registry.") ∧
    r.remove id ct = (r, errorAndThrow "Registry" "Entity not found in registry.") ∧
    r.getEntity id = errorAndThrow "Registry" "Entity not found in registry." ∧
    r.getComponent id ct = errorAndThrow "Registry" "Entity not found in registry." ∧
    r.hasComponent id ct = errorAndThrow "Registry" "Entity not found in registry." ∧
    r.getComponent id2 ct2 = errorAndThrow "ECS" "Entity does not have component" := by
  have hg : mapGet r.entities id = none := mapGet_eq_none_of_not_has _ _ h1
  refine ⟨?_, ?_, ?_, ?_, ?_, ?_, ?_⟩
  · unfold Registry.destroy
    rw [h1]
    rfl
  · unfold Registry.add
    rw [hg]
  · unfold Registry.remove
    rw [hg]
  · unfold Registry.getEntity
    rw [hg]
  · unfold Registry.getComponent
    rw [hg]
  · unfold Registry.hasComponent
    rw [hg]
  · unfold Registry.getComponent
    rw [h2]
    dsimp only
    unfold Entity.getComponent
    rw [mapGet_eq_none_of_not_has _ _ h3]

/-- C2 witness: the claim instantiated at a store holding entity 1 only, with
the unknown id 0 and the absent Rigidbody component type on entity 1. -/
theorem c2_missing_entity_ops_error_witness :
    regC2.destroy "0" = (regC2, errorAndThrow "Registry" "Entity not found in registry.") ∧
    regC2.add "0" compC2 = (regC2, errorAndThrow "Registry" "Entity not found in registry.") ∧
    regC2.remove "0" 196 = (regC2, errorAndThrow "Registry" "Entity not found in registry.") ∧
    regC2.getEntity "0" = errorAndThrow "Registry" "Entity not found in registry." ∧
    regC2.getComponent "0" 196 = errorAndThrow "Registry" "Entity not found in registry." ∧
    regC2.hasComponent "0" 196 = errorAndThrow "Registry" "Entity not found in registry." ∧
    regC2.getComponent "1" 196 = errorAndThrow "ECS" "Entity does not have component" :=
  c2_missing_entity_ops_error regC2 "0" "1" entC2 compC2 196 196
    (by decide) (by decide) (by decide)

lemma find?_map_replace {κ α : Type} [BEq κ] [LawfulBEq κ] (k : κ) (v : α) :
    ∀ m : List (κ × α), mapHas m k = true →
      (m.map (fun p => if p.1 == k then (k, v) else p)).find? (fun p => p.1 == k) =
        some (k, v)
  | [], h => by simp [mapHas] at h
  | p :: t, h => by
    by_cases hp : (p.1 == k) = true
    · simp [hp]
    · have ht : mapHas t k = true := by
        unfold mapHas at h ⊢
        simpa [hp] using h
      rw [List.map_cons, if_neg hp, List.find?_cons_of_neg _ (by simpa using hp)]
      exact find?_map_replace k v t ht

lemma mapGet_mapSet_self {κ α : Type} [BEq κ] [LawfulBEq κ] (m : List (κ × α))
    (k : κ) (v : α) : mapGet (mapSet m k v) k = some v := by
  unfold mapSet
  by_cases h : mapHas m k = true
  · rw [if_pos h]
    unfold mapGet
    rw [find?_map_replace k v m h]
    rfl
  · rw [if_neg h]
    unfold mapGet
    rw [List.find?_append]
    rw [List.find?_eq_none.mpr]
    · simp
    · intro x hx
      intro hc
      have : mapHas m k = true := by
        unfold mapHas
        rw [List.any_eq_true]
        exact ⟨x, hx, hc⟩
      exact h this

lemma map_replace_id {κ α : Type} [BEq κ] (k : κ) (v : α) :
    ∀ t : List (κ × α), (∀ q ∈ t, (q.1 == k) = false) →
      t.map (fun p => if p.1 == k then (k, v) else p) = t
  | [], _ => rfl
  | p :: t, h => by
    rw [List.map_cons, if_neg (by simp [h p (by simp)])]
    rw [map_replace_id k v t (fun q hq => h q (by simp [hq]))]

lemma mapSet_replace_count (c : Component) :
    ∀ l : List (Nat × Component), mapHas l c.componentId = true →
      (l.map (fun p => p.1)).Nodup → (∀ p ∈ l, p.1 = p.2.componentId) →
      (mapSet l c.componentId c).countP
        (fun p => p.2.componentId == c.componentId) = 1
  | [], hh, _, _ => by simp [mapHas] at hh
  | p :: t, hh, hnd, hwf => by
    unfold mapSet
    rw [if_pos hh]
    by_cases hp : (p.1 == c.componentId) = true
    · rw [List.map_cons, if_pos hp]
      have hk : p.1 = c.componentId := by simpa using hp
      have hnd' : p.1 ∉ (t.map (fun q => q.1)) ∧ (t.map (fun q => q.1)).Nodup := by
        rw [List.map_cons] at hnd
        exact List.nodup_cons.mp hnd
      have hnot : ∀ q ∈ t, (q.1 == c.componentId) = false := by
        intro q hq
        have hne : q.1 ≠ p.1 := by
          intro hqe
          exact hnd'.1 (List.mem_map.mpr ⟨q, hq, hqe⟩)
        rw [hk] at hne
        simpa using hne
      rw [map_replace_id _ _ t hnot]
      have hzero : t.countP (fun q => q.2.componentId == c.componentId) = 0 :=
        List.countP_eq_zero.mpr (by
          intro q hq
          have h1 := hwf q (List.mem_cons_of_mem p hq)
          have h2 : ¬ q.1 = c.componentId := by simpa using hnot q hq
          intro hc
          have hc' : q.2.componentId = c.componentId := by simpa using hc
          exact h2 (by rw [h1]; exact hc'))
      rw [List.countP_cons_of_pos _ _ (by simp), hzero]
    · have hht : mapHas t c.componentId = true := by
        unfold mapHas at hh ⊢
        simpa [hp] using hh
      rw [List.map_cons, if_neg hp]
      rw [List.countP_cons_of_neg _ _ (by
        have h1 := hwf p (by simp)
        have h2 : ¬ p.1 = c.componentId := by simpa using hp
        intro hc
        have hc' : p.2.componentId = c.componentId := by simpa using hc
        exact h2 (by rw [h1]; exact hc'))]
      have hnd' : (t.map (fun q => q.1)).Nodup := by
        rw [List.map_cons] at hnd
        exact (List.nodup_cons.mp hnd).2
      have ih := mapSet_replace_count c t hht hnd' (fun q hq => hwf q (by simp [hq]))
      unfold mapSet at ih
      rw [if_pos hht] at ih
      exact ih

lemma mapSet_length_of_has {κ α : Type} [BEq κ] (m : List (κ × α)) (k : κ) (v : α)
    (h : mapHas m k = true) : (mapSet m k v).length = m.length := by
  unfold mapSet
  rw [if_pos h]
  exact List.length_map _ _

/-- C3: adding a component of a type the entity already has replaces the
existing component: the registry returns the new instance, the entity then
holds exactly one component of that type id (its component count does not
grow), and get returns the newly added instance only. -/
theorem c3_add_replaces_existing (r : Registry) (id : String) (e : Entity) (c : Component)
    (h1 : mapGet r.entities id = some e)
    (h2 : Entity.hasComponent e c.componentId = true)
    (h3 : (e.components.map (fun p => p.1)).Nodup)
    (h4 : ∀ p ∈ e.components, p.1 = p.2.componentId) :
    (r.add id c).2 = Except.ok c ∧
    mapGet (r.add id c).1.entities id = some (Entity.addComponent e c) ∧
    (Entity.addComponent e c).components.countP
      (fun p => p.2.componentId == c.componentId) = 1 ∧
    (Entity.addComponent e c).components.length = e.components.length ∧
    (r.add id c).1.getComponent id c.componentId = Except.ok c := by
  have hcount := mapSet_replace_count c e.components h2 h3 h4
  have hget1 : mapGet (r.add id c).1.entities id = some (Entity.addComponent e c) := by
    unfold Registry.add
    rw [h1]
    dsimp only
    cases hty : r.type
    · dsimp only [Registry.updateEntityMapsForEntity]
      exact mapGet_mapSet_self _ _ _
    · exact mapGet_mapSet_self _ _ _
  refine ⟨?_, hget1, hcount, mapSet_length_of_has _ _ _ h2, ?_⟩
  · unfold Registry.add
    rw [h1]
    dsimp only
    cases hty : r.type
    · rfl
    · rfl
  · unfold Registry.getComponent
    rw [hget1]
    dsimp only
    unfold Entity.getComponent
    unfold Entity.addComponent
    dsimp only [getComponentIdFromInstance, getComponentIdFromConstructor]
    rw [mapGet_mapSet_self]

theorem c3_add_replaces_existing_witness :
    (regC3.add "1" compC3).2 = Except.ok compC3 ∧
    mapGet (regC3.add "1" compC3).1.entities "1" = some (Entity.addComponent entC3 compC3) ∧
    (Entity.addComponent entC3 compC3).components.countP
      (fun p => p.2.componentId == compC3.componentId) = 1 ∧
    (Entity.addComponent entC3 compC3).components.length = entC3.components.length ∧
    (regC3.add "1" compC3).1.getComponent "1" compC3.componentId = Except.ok compC3 :=
  c3_add_replaces_existing regC3 "1" entC3 compC3 (by decide) (by decide) (by decide)
    (by decide)

lemma keyNil : getEntityQueryKey [] = "" := by
  simp [getEntityQueryKey]
  rfl

lemma c1_step1 : (regC1.addSystem sysC1).1 = regC1a := by
  have hk := keyNil
  simp [Registry.addSystem, Registry.doesSystemTypeMatch, regC1, sysC1, regC1a,
    sortSystems, List.mergeSort_nil, List.mergeSort_singleton, Registry.updateEntityMaps,
    getAllEntityQueries, hk, mapSet, mapHas, mapGet, qeAdd, setAdd]

lemma c1_step2 : regC1a.create = (regC1b, "0") := by
  have hk := keyNil
  simp [Registry.create, regC1a, regC1b, entC1, Registry.updateEntityMapsForEntity,
    hk, qeAdd, mapSet, mapGet, mapHas, setAdd, Entity.matchesQuery]
  rfl

/-- C1: the query-membership invariant is broken by destroy. In the scenario
built by addSystem, create, the destroy call removes the entity from the
store, then throws a TypeError (the source reads this.entities.get(id)! after
the delete), and the destroyed id stays in the registered query result set:
afterwards the entity is not in the store, yet its id is still in the cached
result set of the empty query. -/
theorem c1_destroy_leaves_query_sets_stale :
    (regC1.addSystem sysC1).1 = regC1a ∧
    regC1a.create = (regC1b, "0") ∧
    (regC1b.destroy "0").2 =
      Except.error "TypeError: Cannot read properties of undefined (reading id)" ∧
    Registry.has (regC1b.destroy "0").1 "0" = false ∧
    mapGet (regC1b.destroy "0").1.queryEntities "" = some ["0"] :=
  ⟨c1_step1, c1_step2, rfl, rfl, rfl⟩

lemma mem_bodyCollisions (colP : RRay → RRay → Option Vec2)
    (normalK : RRay → Vec2 → Vec2) (rayA : RRay) (b : TBody) (c : RayCol)
    (hc : c ∈ bodyCollisions colP normalK rayA b) :
    c.body = b ∧ c.entity = b.pluginEntity.getD "" := by
  unfold bodyCollisions at hc
  suffices h : ∀ (edges : List RRay) (init : List RayCol),
      (∀ x ∈ init, x.body = b ∧ x.entity = b.pluginEntity.getD "") →
      ∀ x ∈ edges.foldl (fun acc edge =>
        match colP rayA edge with
        | none => acc
        | some p => acc ++ [RayCol.make b p (normalK edge rayA.start) edge.verts]) init,
        x.body = b ∧ x.entity = b.pluginEntity.getD "" by
    exact h _ [] (by simp) c hc
  intro edges
  induction edges with
  | nil =>
    intro init hinit x hx
    exact hinit x hx
  | cons e t ih =>
    intro init hinit x hx
    rw [List.foldl_cons] at hx
    cases hcp : colP rayA e with
    | none =>
      rw [hcp] at hx
      exact ih init hinit x hx
    | some pt =>
      rw [hcp] at hx
      refine ih _ ?_ x hx
      intro y hy
      rcases List.mem_append.mp hy with hy | hy
      · exact hinit y hy
      · rw [List.mem_singleton.mp hy]
        exact ⟨rfl, rfl⟩

lemma mem_raycast_cols (queryFn : List TBody → Vec2 → Vec2 → List TBody)
    (colP : RRay → RRay → Option Vec2) (normalK : RRay → Vec2 → Vec2)
    (raytest : RRay) (c : RayCol) :
    ∀ (bs : List TBody) (init : List RayCol),
      (∀ x ∈ init, x.entity ≠ "" ∧ x.body.pluginEntity = some x.entity) →
      c ∈ bs.foldl (fun acc b =>
        acc ++ ((bodyCollisions colP normalK raytest b).reverse.filter
          (fun c => !(c.entity == "")))) init →
      c.entity ≠ "" ∧ c.body.pluginEntity = some c.entity
  | [], init, hinit, hc => hinit c hc
  | b :: t, init, hinit, hc => by
    rw [List.foldl_cons] at hc
    refine mem_raycast_cols queryFn colP normalK raytest c t _ ?_ hc
    intro y hy
    rcases List.mem_append.mp hy with hy | hy
    · exact hinit y hy
    · have hmem := List.mem_filter.mp hy
      have hne : y.entity ≠ "" := by simpa using hmem.2
      have hbc := mem_bodyCollisions colP normalK raytest b y
        (List.mem_reverse.mp hmem.1)
      refine ⟨hne, ?_⟩
      rw [hbc.1]
      cases hpe : b.pluginEntity with
      | none =>
        rw [hbc.2, hpe] at hne
        exact absurd rfl hne
      | some s =>
        rw [hbc.2, hpe]
        rfl

lemma mergeSort_sqDist_sorted (origin : Vec2) (l : List RayCol) :
    (List.mergeSort l
      (fun a b => decide (Vec2.sqDist a.point origin ≤ Vec2.sqDist b.point origin))).Pairwise
      (fun a b => Real.sqrt ((Vec2.sqDist a.point origin : ℚ) : ℝ)
        ≤ Real.sqrt ((Vec2.sqDist b.point origin : ℚ) : ℝ)) := by
  have hs : (List.mergeSort l
      (fun a b => decide (Vec2.sqDist a.point origin ≤ Vec2.sqDist b.point origin))).Pairwise
      (fun a b : RayCol =>
        (decide (Vec2.sqDist a.point origin ≤ Vec2.sqDist b.point origin)) = true) :=
    List.sorted_mergeSort
      (fun a b c hab hbc => by
        simp only [decide_eq_true_eq] at *
        exact le_trans hab hbc)
      (fun a b => by
        simp only [Bool.or_eq_true, decide_eq_true_eq]
        exact le_total _ _) l
  refine hs.imp ?_
  intro a b hab
  simp only [decide_eq_true_eq] at hab
  exact Real.sqrt_le_sqrt (by exact_mod_cast hab)

/-- C8: every result of a ray query owns a nonempty entity id that is exactly
the queried body owner recorded in body.plugin.entity, and the result list is
sorted by ascending euclidean distance of the intersection point from the ray
origin. The geometric kernels and the broad phase are arbitrary. -/
theorem c8_queryRay_entity_owned_sorted
    (queryFn : List TBody → Vec2 → Vec2 → List TBody)
    (colP : RRay → RRay → Option Vec2) (normalK : RRay → Vec2 → Vec2)
    (bodies : List TBody) (origin dir : Vec2) (len : ℚ) :
    (∀ c ∈ PhysicsWorld.queryRay queryFn colP normalK bodies origin dir len,
      c.entity ≠ "" ∧ c.body.pluginEntity = some c.entity) ∧
    (PhysicsWorld.queryRay queryFn colP normalK bodies origin dir len).Pairwise
      (fun a b => Real.sqrt ((Vec2.sqDist a.point origin : ℚ) : ℝ)
        ≤ Real.sqrt ((Vec2.sqDist b.point origin : ℚ) : ℝ)) := by
  unfold PhysicsWorld.queryRay PhysicsWorld.queryRayEnd raycast
  rw [if_pos rfl]
  constructor
  · intro c hc
    rw [List.mem_mergeSort] at hc
    exact mem_raycast_cols queryFn colP normalK _ c _ [] (by simp) hc
  · exact mergeSort_sqDist_sorted origin _

lemma mapHas_of_mapGet_some {κ α : Type} [BEq κ] (m : List (κ × α)) (k : κ) (v : α)
    (h : mapGet m k = some v) : mapHas m k = true := by
  unfold mapGet at h
  unfold mapHas
  cases hf : m.find? (fun p => p.1 == k) with
  | none => rw [hf] at h; cases h
  | some p =>
    rw [List.any_eq_true]
    have hp := List.find?_some hf
    exact ⟨p, List.mem_of_find?_eq_some hf, hp⟩

/-- C9: when a MOVE_PLAYER action with dir.y = 1 is handled for a player whose
entity is in the store with its Rigidbody, Transform and RectangleCollider
components, and the downward ground ray of length (collider.height / 2) * 1.02
reports a hit against a body in the ground collision group, the handler
completes without error, the jump branch maps the velocity to (unchanged x,
PLAYER_JUMP_FORCE), and the stored rigidbody afterwards has vertical velocity
PLAYER_JUMP_FORCE (the same component instance, witnessed by the nonce). -/
theorem c9_grounded_jump_sets_vertical_velocity
    (groundGroup : Int)
    (queryFn : List TBody → Vec2 → Vec2 → List TBody)
    (colP : RRay → RRay → Option Vec2) (normalK : RRay → Vec2 → Vec2)
    (bodies : List TBody) (r : Registry) (p : Player) (d : Vec2) (pe : Entity)
    (rbC tfC colC : Component)
    (v : Vec2) (av de i re f fa fs : ℚ) (st : Bool)
    (pos : Vec2) (rot : ℚ) (sc : Vec2) (zi : Int)
    (w h : ℚ) (sens : Bool) (grp : Int) (cat mask : Nat)
    (hpe : mapGet r.entities p.entity = some pe)
    (hrb : mapGet pe.components Rigidbody.COMPONENT_ID = some rbC)
    (hrbid : rbC.componentId = Rigidbody.COMPONENT_ID)
    (hrbd : rbC.data = ComponentData.rigidbody v av de i re f fa fs st)
    (htf : mapGet pe.components Transform.COMPONENT_ID = some tfC)
    (htfd : tfC.data = ComponentData.transform pos rot sc zi)
    (hcl : mapGet pe.components RectangleCollider.COMPONENT_ID = some colC)
    (hcld : colC.data = ComponentData.rectangleCollider w h sens grp cat mask)
    (hdy : d.y = 1)
    (hg : (PhysicsWorld.queryRay queryFn colP normalK bodies pos
        (Vec2.mk 0 (-1)) (h / 2 * (51 / 50))).any
        (fun c => c.body.collisionFilterGroup == groundGroup) = true) :
    (movePlayerAction groundGroup queryFn colP normalK bodies r
      (MovePlayerData.mk (some p) (some d))).err = none ∧
    movePlayerJumpStep true d v = Vec2.mk v.x PLAYER_JUMP_FORCE ∧
    Registry.getComponent
      (movePlayerAction groundGroup queryFn colP normalK bodies r
        (MovePlayerData.mk (some p) (some d))).registry
      p.entity Rigidbody.COMPONENT_ID =
    Except.ok (Component.mk rbC.componentId rbC.nonce
      (ComponentData.rigidbody
        (Vec2.mk (if !(d.x == 0) then d.x * PLAYER_MOVE_FORCE else v.x) PLAYER_JUMP_FORCE)
        av de i re f fa fs st)) := by
  have hjump : movePlayerJumpStep true d v = Vec2.mk v.x PLAYER_JUMP_FORCE := by
    unfold movePlayerJumpStep
    rw [hdy]
    simp
  have hgc1 : Registry.getComponent r p.entity Rigidbody.COMPONENT_ID = Except.ok rbC := by
    unfold Registry.getComponent Entity.getComponent
    rw [hpe]
    dsimp only [getComponentIdFromConstructor]
    rw [hrb]
  have hgc2 : Registry.getComponent r p.entity Transform.COMPONENT_ID = Except.ok tfC := by
    unfold Registry.getComponent Entity.getComponent
    rw [hpe]
    dsimp only [getComponentIdFromConstructor]
    rw [htf]
  have hgc3 : Registry.getComponent r p.entity RectangleCollider.COMPONENT_ID
      = Except.ok colC := by
    unfold Registry.getComponent Entity.getComponent
    rw [hpe]
    dsimp only [getComponentIdFromConstructor]
    rw [hcl]
  have hhas : Registry.has r p.entity = true := by
    unfold Registry.has
    exact mapHas_of_mapGet_some _ _ _ hpe
  have hout : movePlayerAction groundGroup queryFn colP normalK bodies r
      (MovePlayerData.mk (some p) (some d)) =
      MoveOut.mk
        (Registry.setComponentData
          (Registry.setComponentData r p.entity
            (Component.mk rbC.componentId rbC.nonce
              (ComponentData.rigidbody (Vec2.mk v.x PLAYER_JUMP_FORCE) av de i re f fa fs st)))
          p.entity
          (Component.mk rbC.componentId rbC.nonce
            (ComponentData.rigidbody
              (Vec2.mk (if !(d.x == 0) then d.x * PLAYER_MOVE_FORCE else v.x) PLAYER_JUMP_FORCE)
              av de i re f fa fs st)))
        (some (Player.mk p.entity d)) none := by
    unfold movePlayerAction
    dsimp only
    rw [if_neg (by rw [hhas]; decide)]
    rw [hgc1, hgc2, hgc3]
    try dsimp only
    rw [hrbd, htfd, hcld]
    try dsimp only
    rw [hg]
    try dsimp only
    unfold movePlayerJumpStep
    rw [hdy]
    try dsimp only
    unfold Rigidbody.setVelocity
    rw [hrbd]
    try dsimp only
    rfl
  refine ⟨by rw [hout], hjump, ?_⟩
  rw [hout]
  try dsimp only
  unfold Registry.setComponentData
  rw [hpe]
  try dsimp only [getComponentIdFromInstance]
  rw [mapGet_mapSet_self]
  try dsimp only
  unfold Registry.getComponent Entity.getComponent
  rw [mapGet_mapSet_self]
  try dsimp only [getComponentIdFromConstructor]
  rw [hrbid]
  rw [mapGet_mapSet_self]

theorem c9_grounded_jump_sets_vertical_velocity_witness :
    (movePlayerAction ggW qFnW cPW nKW [gBodyW] regC9
      (MovePlayerData.mk (some playerW) (some dirW))).err = none ∧
    movePlayerJumpStep true dirW (Vec2.mk 0 0) = Vec2.mk 0 PLAYER_JUMP_FORCE ∧
    Registry.getComponent
      (movePlayerAction ggW qFnW cPW nKW [gBodyW] regC9
        (MovePlayerData.mk (some playerW) (some dirW))).registry
      playerW.entity Rigidbody.COMPONENT_ID =
    Except.ok (Component.mk 196 3
      (ComponentData.rigidbody (Vec2.mk 0 PLAYER_JUMP_FORCE) 0 1 0 0 0 0 0 false)) := by
  have hg : (PhysicsWorld.queryRay qFnW cPW nKW [gBodyW] (Vec2.mk 0 0)
      (Vec2.mk 0 (-1)) ((2 : ℚ) / 2 * (51 / 50))).any
      (fun c => c.body.collisionFilterGroup == ggW) = true := by
    unfold PhysicsWorld.queryRay PhysicsWorld.queryRayEnd raycast
    rw [if_pos rfl]
    rw [List.any_eq_true]
    refine ⟨RayCol.mk gBodyW (Vec2.mk 0 0) (Vec2.mk 0 1) [Vec2.mk 0 0, Vec2.mk 0 0] "g",
      ?_, by decide⟩
    rw [List.mem_mergeSort]
    decide
  have h := c9_grounded_jump_sets_vertical_velocity ggW qFnW cPW nKW [gBodyW] regC9
    playerW dirW peW rbW tfW clW (Vec2.mk 0 0) 0 1 0 0 0 0 0
    false (Vec2.mk 0 0) 0 (Vec2.mk 1 1) 0 2 2 false 2 1 0
    (by decide) (by decide) (by decide) (by decide) (by decide) (by decide) (by decide)
    (by decide) (by decide) hg
  refine ⟨h.1, by simpa using h.2.1, by simpa using h.2.2⟩

lemma find?_map_replace_ne {κ α : Type} [BEq κ] [LawfulBEq κ] (k b : κ) (v : α)
    (hne : (b == k) = false) :
    ∀ m : List (κ × α),
      (m.map (fun p => if p.1 == k then (k, v) else p)).find? (fun p => p.1 == b) =
        m.find? (fun p => p.1 == b)
  | [] => rfl
  | p :: t => by
    by_cases hp : (p.1 == k) = true
    · have hk : p.1 = k := by simpa using hp
      have hkb : (k == b) = false := by
        have : ¬ b = k := by simpa using hne
        simp [beq_eq_false_iff_ne]
        exact fun hc => this hc.symm
      rw [List.map_cons, if_pos hp]
      rw [List.find?_cons_of_neg _ (by simp [hkb])]
      rw [List.find?_cons_of_neg _ (by rw [hk]; simp [hkb])]
      exact find?_map_replace_ne k b v hne t
    · rw [List.map_cons, if_neg hp]
      by_cases hb : (p.1 == b) = true
      · simp only [List.find?_cons, hb]
      · rw [List.find?_cons_of_neg _ (by simpa using hb),
          List.find?_cons_of_neg _ (by simpa using hb)]
        exact find?_map_replace_ne k b v hne t

lemma mapGet_mapSet_ne {κ α : Type} [BEq κ] [LawfulBEq κ] (m : List (κ × α))
    (k b : κ) (v : α) (hne : (b == k) = false) :
    mapGet (mapSet m k v) b = mapGet m b := by
  unfold mapSet
  by_cases h : mapHas m k = true
  · rw [if_pos h]
    unfold mapGet
    rw [find?_map_replace_ne k b v hne m]
  · rw [if_neg h]
    unfold mapGet
    rw [List.find?_append]
    have hkb : (k == b) = false := by
      have : ¬ b = k := by simpa using hne
      simp [beq_eq_false_iff_ne]
      exact fun hc => this hc.symm
    rw [show List.find? (fun p => p.1 == b) [(k, v)] = none from by
      rw [List.find?_cons_of_neg _ (by simp [hkb])]
      rfl]
    cases m.find? (fun p => p.1 == b) <;> rfl

lemma mapGet_mapDelete {κ α : Type} [BEq κ] [LawfulBEq κ] (k b : κ)
    (hne : (b == k) = false) :
    ∀ m : List (κ × α), mapGet (mapDelete m k) b = mapGet m b
  | [] => rfl
  | p :: t => by
    unfold mapDelete
    rw [List.filter_cons]
    by_cases hp : (p.1 == k) = true
    · rw [if_neg (by simp [hp])]
      have hpb : (p.1 == b) = false := by
        have hk : p.1 = k := by simpa using hp
        have : ¬ b = k := by simpa using hne
        rw [hk]
        simp [beq_eq_false_iff_ne]
        exact fun hc => this hc.symm
      have ih := mapGet_mapDelete k b hne t
      unfold mapDelete at ih
      rw [ih]
      unfold mapGet
      rw [List.find?_cons_of_neg _ (by simp [hpb])]
    · rw [if_pos (by simp [hp])]
      by_cases hb : (p.1 == b) = true
      · unfold mapGet
        simp only [List.find?_cons, hb]
      · unfold mapGet
        rw [List.find?_cons_of_neg _ (by simpa using hb),
          List.find?_cons_of_neg _ (by simpa using hb)]
        have ih := mapGet_mapDelete k b hne t
        unfold mapDelete mapGet at ih
        exact ih

/-- register keeps handlers and validators paired, so the pairing hypothesis
of the validator-gating claim holds in every state reachable through register
and unregister. -/
lemma register_preserves_pairing {T D : Type} [BEq T] [LawfulBEq T]
    (m : ActionsManager T D) (a : T) (h : Nat) (v : T → D → Bool)
    (hs : ∀ b : T, (mapGet m.handlers b).isSome = (mapGet m.validators b).isSome) :
    ∀ b : T, (mapGet (m.register a h v).handlers b).isSome =
      (mapGet (m.register a h v).validators b).isSome := by
  intro b
  unfold ActionsManager.register
  by_cases hb : (b == a) = true
  · have hba : b = a := by simpa using hb
    subst hba
    rw [mapGet_mapSet_self, mapGet_mapSet_self]
    rfl
  · rw [mapGet_mapSet_ne _ _ _ _ (by simpa using hb),
      mapGet_mapSet_ne _ _ _ _ (by simpa using hb)]
    exact hs b

/-- unregister also keeps handlers and validators paired. -/
lemma unregister_preserves_pairing {T D : Type} [BEq T] [LawfulBEq T]
    (m : ActionsManager T D) (a : T)
    (hs : ∀ b : T, (mapGet m.handlers b).isSome = (mapGet m.validators b).isSome) :
    ∀ b : T, (mapGet (m.unregister a).handlers b).isSome =
      (mapGet (m.unregister a).validators b).isSome := by
  intro b
  unfold ActionsManager.unregister
  by_cases hb : (b == a) = true
  · have hba : b = a := by simpa using hb
    subst hba
    have hnone : ∀ (l : List (T × Nat)), mapGet (mapDelete l b) b = none := by
      intro l
      unfold mapGet
      rw [List.find?_eq_none.mpr]
      · rfl
      · intro x hx
        have := List.mem_filter.mp hx
        simpa using this.2
    have hnone2 : ∀ (l : List (T × (T → D → Bool))), mapGet (mapDelete l b) b = none := by
      intro l
      unfold mapGet
      rw [List.find?_eq_none.mpr]
      · rfl
      · intro x hx
        have := List.mem_filter.mp hx
        simpa using this.2
    rw [hnone, hnone2]
    rfl
  · rw [mapGet_mapDelete _ _ (by simpa using hb),
      mapGet_mapDelete _ _ (by simpa using hb)]
    exact hs b

end Wtmt
